import Mathlib

/-!
Shallow embedding of the combat/stat core of the `dungeon_quest` terminal
game (files `stats.py`, `player.py`, `entities.py`, `enemy.py`,
`combat.py`), together with theorems settling the specification claims.

Python integers are modelled as `Int`.  Python float skill powers are
modelled as `Rat`; `int(x)` applied to a product is modelled as rational
truncation toward zero (`ratTrunc`), which is exact for the products the
game computes.  `int(x * 0.1)` in `level_up` is modelled as truncation of
`x / 10`, exact for every stat magnitude the game reaches.  Mutation is
modelled by explicit state passing: a Python method mutating `self` and
returning `r` becomes a Lean function returning the new state paired
with `r`.
-/

namespace DungeonQuest

/-- Truncation toward zero of a rational, the semantics of Python's
`int()` applied to a (non-NaN) float value. -/
def ratTrunc (q : ℚ) : ℤ := Int.tdiv q.num q.den

/-- `stats.py` `StatusEffect`: a temporary status effect (buff/debuff/DOT). -/
structure StatusEffect where
  name : String
  effect_type : String
  stat_affected : String := ""
  power : ℤ := 0
  duration : ℤ := 0
deriving Repr, DecidableEq

/-- `StatusEffect.tick`: reduce duration by 1 turn; the returned `Bool` is
true iff the effect is still active. -/
def StatusEffect.tickEffect (e : StatusEffect) : StatusEffect × Bool :=
  let e' : StatusEffect := { e with duration := e.duration - 1 }
  (e', decide (e'.duration > 0))

/-- `stats.py` `Stats`: character statistics. -/
structure Stats where
  hp : ℤ
  max_hp : ℤ
  mp : ℤ
  max_mp : ℤ
  attack : ℤ
  speed : ℤ
  level : ℤ := 1
  exp : ℤ := 0
  status_effects : List StatusEffect := []
deriving Repr, DecidableEq

/-- The in-place update `Stats.add_status_effect` performs on a same-name
existing effect: refresh the duration to the max, and accumulate power
when the incoming effect is damage-over-time. -/
def refreshEffect (existing effect : StatusEffect) : StatusEffect :=
  { existing with
    duration := max existing.duration effect.duration,
    power :=
      if effect.effect_type = "damage_over_time" then
        existing.power + effect.power
      else existing.power }

/-- The loop body of `Stats.add_status_effect`: walk the list looking for
an existing effect with the same name; on the first hit refresh its
duration to the max and, when the incoming effect is damage-over-time,
accumulate its power; otherwise append the new effect at the end. -/
def addEffectToList (l : List StatusEffect) (effect : StatusEffect) :
    List StatusEffect :=
  match l with
  | [] => [effect]
  | existing :: rest =>
    if existing.name = effect.name then
      refreshEffect existing effect :: rest
    else existing :: addEffectToList rest effect

/-- `Stats.add_status_effect`. -/
def Stats.add_status_effect (s : Stats) (effect : StatusEffect) : Stats :=
  { s with status_effects := addEffectToList s.status_effects effect }

/-- `Stats.remove_status_effect`: drop every effect carrying the name. -/
def Stats.remove_status_effect (s : Stats) (effect_name : String) : Stats :=
  { s with status_effects :=
      s.status_effects.filter (fun e => e.name ≠ effect_name) }

/-- `Stats.get_stat_modifier`: total `stat_mod` power aimed at a stat. -/
def Stats.get_stat_modifier (s : Stats) (stat_name : String) : ℤ :=
  s.status_effects.foldl
    (fun total e =>
      if e.effect_type = "stat_mod" ∧ e.stat_affected = stat_name then
        total + e.power
      else total) 0

/-- `Stats.get_effective_attack`. -/
def Stats.get_effective_attack (s : Stats) : ℤ :=
  max 1 (s.attack + s.get_stat_modifier "attack")

/-- `Stats.get_effective_speed`. -/
def Stats.get_effective_speed (s : Stats) : ℤ :=
  max 1 (s.speed + s.get_stat_modifier "speed")

/-- `Stats.is_stunned`. -/
def Stats.is_stunned (s : Stats) : Bool :=
  s.status_effects.any (fun e => e.effect_type = "stun")

/-- `Stats.take_damage`: floor the damage at 1, clamp hp at 0, report the
floored amount. -/
def Stats.take_damage (s : Stats) (damage : ℤ) : Stats × ℤ :=
  let actual_damage := max 1 damage
  ({ s with hp := max 0 (s.hp - actual_damage) }, actual_damage)

/-- `Stats.heal`: cap hp at `max_hp`; the reported amount is
`max 1 amount` while the hp update uses the raw `amount`. -/
def Stats.heal (s : Stats) (amount : ℤ) : Stats × ℤ :=
  let actual_heal := max 1 amount
  ({ s with hp := min s.max_hp (s.hp + amount) }, actual_heal)

/-- `Stats.is_alive`. -/
def Stats.is_alive (s : Stats) : Bool := decide (s.hp > 0)

/-- `Stats.use_mp`: deduct iff enough MP is available. -/
def Stats.use_mp (s : Stats) (amount : ℤ) : Stats × Bool :=
  if s.mp ≥ amount then ({ s with mp := s.mp - amount }, true)
  else (s, false)

/-- `Stats.restore_mp`. -/
def Stats.restore_mp (s : Stats) (amount : ℤ) : Stats :=
  { s with mp := min s.max_mp (s.mp + amount) }

/-- `int(x * 0.1)` from `player.py` `Player.level_up`, modelled as
truncated division by 10 (exact for the stat magnitudes the game
reaches). -/
def tenPercent (x : ℤ) : ℤ := Int.tdiv x 10

/-- `player.py` `Player.level_up`: bump level, grow max pools and attack
by 10%, fully restore hp and mp, bump speed. -/
def levelUp (s : Stats) : Stats :=
  let new_max_hp := s.max_hp + tenPercent s.max_hp
  let new_max_mp := s.max_mp + tenPercent s.max_mp
  { s with
    level := s.level + 1,
    max_hp := new_max_hp,
    max_mp := new_max_mp,
    hp := new_max_hp,
    mp := new_max_mp,
    attack := s.attack + tenPercent s.attack,
    speed := s.speed + 1 }

/-- `player.py` `Player.gain_exp`: add the experience, then level up at
most once when the (pre-level-up) threshold `level * 100` is reached. -/
def gainExp (s : Stats) (amount : ℤ) : Stats :=
  let s1 := { s with exp := s.exp + amount }
  let exp_needed := s1.level * 100
  if s1.exp ≥ exp_needed then levelUp s1 else s1

/-- The starting stats of the `Warrior` player class, used as a concrete
container in witnesses. -/
def warriorStats : Stats :=
  { hp := 120, max_hp := 120, mp := 30, max_mp := 30, attack := 18,
    speed := 8 }

/-- Combat log messages.  The Python code builds formatted strings; only
the payload (message kind, effect or combatant names, amounts) is
modelled. -/
inductive Msg where
  | dotDamage (effectName : String) (damage : ℤ)
  | woreOff (effectName : String)
  | attackHit (attacker target : String) (damage : ℤ)
  | stunnedSkip (who : String)
deriving Repr, DecidableEq

/-- The `for effect in self.status_effects` loop of
`Stats.tick_status_effects`, carrying the mutating container (only its
`hp` is touched, through `take_damage`), the effects with their
durations decremented, the names scheduled for removal, and the
messages. -/
def tickLoop (s : Stats) (effects : List StatusEffect) :
    Stats × List StatusEffect × List String × List Msg :=
  match effects with
  | [] => (s, [], [], [])
  | e :: rest =>
    let dotStep :=
      if e.effect_type = "damage_over_time" then
        let d := s.take_damage e.power
        (d.1, [Msg.dotDamage e.name d.2])
      else (s, ([] : List Msg))
    let t := e.tickEffect
    let expiredStep :=
      if t.2 = false then ([e.name], [Msg.woreOff e.name])
      else (([] : List String), ([] : List Msg))
    let r := tickLoop dotStep.1 rest
    (r.1, t.1 :: r.2.1, expiredStep.1 ++ r.2.2.1,
      dotStep.2 ++ (expiredStep.2 ++ r.2.2.2))

/-- `Stats.tick_status_effects`: run the loop over the effects present
at the start of the tick, then remove the expired names (removal happens
only after the full pass). -/
def Stats.tick_status_effects (s : Stats) : Stats × List Msg :=
  let r := tickLoop s s.status_effects
  let afterPass := { r.1 with status_effects := r.2.1 }
  (r.2.2.1.foldl (fun st nm => st.remove_status_effect nm) afterPass,
    r.2.2.2)

/-- An effect with its duration decremented by one, as
`tick_status_effects` leaves every processed effect. -/
def decDur (e : StatusEffect) : StatusEffect :=
  { e with duration := e.duration - 1 }

/-- The hp left after every damage-over-time effect of the list has
applied its (1-floored, 0-clamped) damage in order. -/
def dotHp (hp : ℤ) (l : List StatusEffect) : ℤ :=
  l.foldl
    (fun h e =>
      if e.effect_type = "damage_over_time" then max 0 (h - max 1 e.power)
      else h) hp

/-- The messages one tick emits: per effect, in list order, a DOT damage
message when it is damage-over-time, then an expiry message when its
duration is about to reach 0. -/
def tickMsgs (l : List StatusEffect) : List Msg :=
  (l.map (fun e =>
    (if e.effect_type = "damage_over_time" then
      [Msg.dotDamage e.name (max 1 e.power)]
     else []) ++
    (if e.duration ≤ 1 then [Msg.woreOff e.name] else []))).flatten

/-- The names of the effects a tick expires. -/
def expiredNames (l : List StatusEffect) : List String :=
  (l.filter (fun e => decide (e.duration ≤ 1))).map (fun e => e.name)

/-- `stats.py` `Skill`: an immutable skill definition. -/
structure Skill where
  name : String
  description : String
  mp_cost : ℤ
  skill_type : String
  power : ℚ := 0
  duration : ℤ := 0
  status_effect : Option String := none
deriving Repr, DecidableEq

/-- The `effect_amount` computed by `Player.use_skill`:
`int(self.stats.attack * skill.power)` — the base attack stat, with no
status-effect modifiers applied. -/
def effectAmount (caster : Stats) (skill : Skill) : ℤ :=
  ratTrunc ((caster.attack : ℚ) * skill.power)

/-- Floor of a rational (the denominator is positive, so `Int.fdiv` of
numerator by denominator is the floor). -/
def ratFloor (q : ℚ) : ℤ := Int.fdiv q.num q.den

/-- Modelled from the spec: the spec's skill formula
`effect_amount = floor(caster.effective_attack * skill.power)`, stated
for comparison with the source's `effectAmount`. -/
def effectAmountSpec (caster : Stats) (skill : Skill) : ℤ :=
  ratFloor ((caster.get_effective_attack : ℚ) * skill.power)

/-- The outcome of `Player.use_skill`: `insufficientMp` is the
`(None, message)` return before any state change; `hit` carries the
caster's and the target's updated stats together with the returned
amount; `unknownType` is the `(None, message)` return after the MP was
already spent. -/
inductive SkillResult where
  | insufficientMp (caster : Stats)
  | hit (caster target : Stats) (returned : ℤ)
  | unknownType (caster : Stats)
deriving Repr, DecidableEq

/-- `player.py` `Player.use_skill`.  The `random.uniform(0.9, 1.1)`
factor of the damage branch is the parameter `rand`. -/
def useSkill (caster : Stats) (skill : Skill) (target : Stats)
    (rand : ℚ) : SkillResult :=
  let mpResult := caster.use_mp skill.mp_cost
  if mpResult.2 = false then SkillResult.insufficientMp caster
  else
    let caster1 := mpResult.1
    let effect_amount := effectAmount caster1 skill
    if skill.skill_type = "damage" then
      let damage := ratTrunc ((effect_amount : ℚ) * rand)
      let r := target.take_damage damage
      SkillResult.hit caster1 r.1 r.2
    else if skill.skill_type = "heal" then
      SkillResult.hit caster1 (target.heal effect_amount).1 0
    else if skill.skill_type = "buff" then
      let buff_amount := max 1 effect_amount
      SkillResult.hit
        (caster1.add_status_effect
          { name := skill.name, effect_type := "stat_mod",
            stat_affected := "attack", power := buff_amount,
            duration := skill.duration }) target 0
    else if skill.skill_type = "debuff" then
      let debuff_amount := max 1 effect_amount
      SkillResult.hit caster1
        (target.add_status_effect
          { name := skill.name, effect_type := "stat_mod",
            stat_affected := "attack", power := -debuff_amount,
            duration := skill.duration }) 0
    else if skill.skill_type = "dot" then
      let dot_damage := max 1 effect_amount
      SkillResult.hit caster1
        (target.add_status_effect
          { name := skill.status_effect.getD skill.name,
            effect_type := "damage_over_time", power := dot_damage,
            duration := skill.duration }) 0
    else if skill.skill_type = "stun" then
      SkillResult.hit caster1
        (target.add_status_effect
          { name := "Stunned", effect_type := "stun",
            duration := skill.duration }) 0
    else SkillResult.unknownType caster1

/-- `entities.py` `Entity.basic_attack`; the `random.uniform(0.8, 1.2)`
factor is the parameter `rand`.  Returns the target's updated stats and
the actual damage dealt. -/
def basicAttack (attacker target : Stats) (rand : ℚ) : Stats × ℤ :=
  let damage := ratTrunc ((attacker.get_effective_attack : ℚ) * rand)
  target.take_damage damage

/-- `player.py` `Player`, restricted to the state the combat loop
touches (inventory is not needed by the claims below). -/
structure Player where
  name : String
  stats : Stats
  skills : List Skill
  gold : ℤ
deriving Repr, DecidableEq

/-- `enemy.py` `Enemy`. -/
structure Enemy where
  name : String
  stats : Stats
  exp_reward : ℤ
  gold_reward : ℤ
deriving Repr, DecidableEq

/-- `combat.py` `CombatSystem._enemy_turn`: a stunned enemy skips its
action; otherwise it basic-attacks the player. -/
def enemyTurn (e : Enemy) (p : Player) (rand : ℚ) : Player × List Msg :=
  if e.stats.is_stunned then (p, [Msg.stunnedSkip e.name])
  else
    let r := basicAttack e.stats p.stats rand
    ({ p with stats := r.1 }, [Msg.attackHit e.name p.name r.2])

/-- `combat.py` `CombatSystem._handle_victory`: grant exp and gold. -/
def handleVictory (p : Player) (e : Enemy) : Player :=
  { p with stats := gainExp p.stats e.exp_reward,
           gold := p.gold + e.gold_reward }

/-- The state of one combat-loop iteration as it returns to the top of
the `while` loop (or returns victorious from inside the turn). -/
inductive TurnResult where
  | victory (p : Player) (e : Enemy)
  | ongoing (p : Player) (e : Enemy)
deriving Repr, DecidableEq

/-- One iteration of `CombatSystem.run_combat` in which the (unstunned)
player chose `'1'` (basic attack): the player's attack, then — unless
the enemy died, which returns victory at once — the enemy's turn
followed unconditionally by `_end_of_turn` (tick on the player, then on
the enemy). -/
def combatTurnAttack (p : Player) (e : Enemy) (pRand eRand : ℚ) :
    TurnResult :=
  let a := basicAttack p.stats e.stats pRand
  let e1 : Enemy := { e with stats := a.1 }
  if e1.stats.is_alive = false then
    TurnResult.victory (handleVictory p e1) e1
  else
    let afterEnemy := (enemyTurn e1 p eRand).1
    let pTick := afterEnemy.stats.tick_status_effects
    let eTick := e1.stats.tick_status_effects
    TurnResult.ongoing { afterEnemy with stats := pTick.1 }
      { e1 with stats := eTick.1 }

/-- Outcome of one combat-loop iteration where the player picked a
skill: `notConsumed` models `_handle_skills` returning `False` (the
`continue` branch — note an unknown skill type still spent the MP),
otherwise the iteration runs to the next loop check. -/
inductive SkillTurn where
  | notConsumed (p : Player)
  | result (r : TurnResult)
deriving Repr, DecidableEq

/-- The rest of a `run_combat` iteration after `use_skill` succeeded on
the enemy: victory check, else enemy turn plus `_end_of_turn`. -/
def skillHitContinue (p1 : Player) (e1 : Enemy) (eRand : ℚ) : SkillTurn :=
  if e1.stats.is_alive = false then
    SkillTurn.result (TurnResult.victory (handleVictory p1 e1) e1)
  else
    let afterEnemy := (enemyTurn e1 p1 eRand).1
    let pTick := afterEnemy.stats.tick_status_effects
    let eTick := e1.stats.tick_status_effects
    SkillTurn.result (TurnResult.ongoing
      { afterEnemy with stats := pTick.1 } { e1 with stats := eTick.1 })

/-- One iteration of `run_combat` in which the (unstunned) player chose
`'2'` and a valid skill index: `_handle_skills` calls
`use_skill(skill, self.enemy)` — the enemy is always the target — then
on success either victory or the enemy's turn plus `_end_of_turn`. -/
def combatTurnSkill (p : Player) (e : Enemy) (skill : Skill)
    (sRand eRand : ℚ) : SkillTurn :=
  match useSkill p.stats skill e.stats sRand with
  | SkillResult.insufficientMp c => SkillTurn.notConsumed { p with stats := c }
  | SkillResult.unknownType c1 => SkillTurn.notConsumed { p with stats := c1 }
  | SkillResult.hit c1 t1 _ =>
    skillHitContinue { p with stats := c1 } { e with stats := t1 } eRand

/-- The terminal states `run_combat` can report. -/
inductive CombatState where
  | active
  | playerVictory
  | playerDefeat
deriving Repr, DecidableEq

/-- The check at the top of the `while` loop (plus the post-loop player
check): a dead player means defeat, a dead enemy with a live player
means the loop exits returning victory, otherwise combat stays active. -/
def stateAfterTurn (r : TurnResult) : CombatState :=
  match r with
  | TurnResult.victory _ _ => CombatState.playerVictory
  | TurnResult.ongoing p e =>
    if p.stats.is_alive = false then CombatState.playerDefeat
    else if e.stats.is_alive = false then CombatState.playerVictory
    else CombatState.active

/-- The Slime's stats from the enemy database. -/
def slimeStats : Stats :=
  { hp := 30, max_hp := 30, mp := 5, max_mp := 5, attack := 6, speed := 4 }

/-- A Warrior whose attack is buffed by an active Battle Cry
stat-modifier (+5 attack for 3 turns). -/
def buffedCaster : Stats :=
  { warriorStats with status_effects :=
      [{ name := "Battle Cry", effect_type := "stat_mod",
         stat_affected := "attack", power := 5, duration := 3 }] }

/-- The Warrior's Whirlwind skill (200% damage for 20 MP). -/
def whirlwind : Skill :=
  { name := "Whirlwind",
    description := "Spinning attack dealing 200% damage",
    mp_cost := 20, skill_type := "damage", power := 2 }

/-- The Wizard's starting stats. -/
def wizardStats : Stats :=
  { hp := 80, max_hp := 80, mp := 60, max_mp := 60, attack := 12,
    speed := 10 }

/-- The Wizard's Heal skill (80% of attack for 15 MP). -/
def healSkill : Skill :=
  { name := "Heal", description := "Restore HP based on 80% of attack",
    mp_cost := 15, skill_type := "heal", power := 0.8 }

/-- A Wizard player as it enters combat. -/
def wizardPlayer : Player :=
  { name := "Merlin", stats := wizardStats, skills := [healSkill],
    gold := 0 }

/-- A Slime enemy that has already lost 10 HP. -/
def woundedSlime : Enemy :=
  { name := "Slime", stats := { slimeStats with hp := 20 },
    exp_reward := 20, gold_reward := 10 }

/-- A Warrior at 3 HP, poisoned (2 damage per turn for 3 more turns):
one Slime hit kills them. -/
def doomedPlayer : Player :=
  { name := "Conan",
    stats := { warriorStats with
      hp := 3,
      status_effects :=
        [{ name := "Poison", effect_type := "damage_over_time",
           power := 2, duration := 3 }] },
    skills := [], gold := 0 }

/-- A fresh Slime enemy. -/
def slimeEnemy : Enemy :=
  { name := "Slime", stats := slimeStats, exp_reward := 20,
    gold_reward := 10 }

end DungeonQuest

namespace DungeonQuest

/-- C5: take_damage sets hp to max(0, hp - max(1, amount)), returns
max(1, amount), always reduces a positive hp by at least 1 and never
leaves hp below 0. -/
theorem take_damage_spec (s : Stats) (amount : ℤ) :
    (s.take_damage amount).1.hp = max 0 (s.hp - max 1 amount) ∧
    (s.take_damage amount).2 = max 1 amount ∧
    0 ≤ (s.take_damage amount).1.hp ∧
    (1 ≤ s.hp → (s.take_damage amount).1.hp ≤ s.hp - 1) := by
  refine ⟨rfl, rfl, le_max_left _ _, fun h => ?_⟩
  simp only [Stats.take_damage]
  omega

/-- C6: heal sets hp to min(max_hp, hp + amount) and returns
max(1, amount); the resulting hp never exceeds max_hp. -/
theorem heal_spec (s : Stats) (amount : ℤ) (hcap : s.hp ≤ s.max_hp) :
    (s.heal amount).1.hp = min s.max_hp (s.hp + amount) ∧
    (s.heal amount).2 = max 1 amount ∧
    (s.heal amount).1.hp ≤ s.max_hp := by
  exact ⟨rfl, rfl, min_le_left _ _⟩

/-- C7: use_mp succeeds and deducts `amount` iff `mp ≥ amount`; on
failure the whole container is unchanged. -/
theorem use_mp_spec (s : Stats) (amount : ℤ) :
    ((s.use_mp amount).2 = true ↔ s.mp ≥ amount) ∧
    (s.mp ≥ amount → (s.use_mp amount).1 = { s with mp := s.mp - amount }) ∧
    (s.mp < amount → (s.use_mp amount).1 = s) := by
  constructor
  · constructor
    · intro h
      by_contra hc
      simp [Stats.use_mp, hc] at h
    · intro h
      simp [Stats.use_mp, h]
  · constructor
    · intro h
      simp [Stats.use_mp, h]
    · intro h
      have h' : ¬ s.mp ≥ amount := not_le.mpr h
      simp [Stats.use_mp, h']

/-- C10: for a non-positive amount, heal still reports 1 while adding the
raw (non-positive) amount to hp whenever `hp ≤ max_hp`; a negative
amount strictly decreases hp and can drive it below 0. -/
theorem heal_negative_spec (s : Stats) (amount : ℤ)
    (hcap : s.hp ≤ s.max_hp) (hamt : amount ≤ 0) :
    (s.heal amount).2 = 1 ∧
    (s.heal amount).1.hp = s.hp + amount ∧
    (amount < 0 → (s.heal amount).1.hp < s.hp) ∧
    (s.hp + amount < 0 → (s.heal amount).1.hp < 0) := by
  have hmin : min s.max_hp (s.hp + amount) = s.hp + amount := by omega
  refine ⟨?_, ?_, ?_, ?_⟩
  · simp only [Stats.heal]
    omega
  · simp only [Stats.heal]
    omega
  · intro h
    simp only [Stats.heal]
    omega
  · intro h
    simp only [Stats.heal]
    omega

/-- Witness for C6 at a concrete container. -/
theorem heal_spec_witness :
    ({ hp := 90, max_hp := 100, mp := 10, max_mp := 10, attack := 5,
       speed := 5 : Stats}.heal 40).1.hp = min 100 (90 + 40) ∧
    ({ hp := 90, max_hp := 100, mp := 10, max_mp := 10, attack := 5,
       speed := 5 : Stats}.heal 40).2 = max 1 40 ∧
    ({ hp := 90, max_hp := 100, mp := 10, max_mp := 10, attack := 5,
       speed := 5 : Stats}.heal 40).1.hp ≤ 100 :=
  heal_spec
    { hp := 90, max_hp := 100, mp := 10, max_mp := 10, attack := 5,
      speed := 5 } 40 (by decide)

/-- Witness for C10 at a concrete container and amount. -/
theorem heal_negative_spec_witness :
    ({ hp := 5, max_hp := 100, mp := 10, max_mp := 10, attack := 5,
       speed := 5 : Stats}.heal (-10)).2 = 1 ∧
    ({ hp := 5, max_hp := 100, mp := 10, max_mp := 10, attack := 5,
       speed := 5 : Stats}.heal (-10)).1.hp = 5 + (-10) ∧
    ((-10 : ℤ) < 0 →
      ({ hp := 5, max_hp := 100, mp := 10, max_mp := 10, attack := 5,
         speed := 5 : Stats}.heal (-10)).1.hp < 5) ∧
    ((5 : ℤ) + (-10) < 0 →
      ({ hp := 5, max_hp := 100, mp := 10, max_mp := 10, attack := 5,
         speed := 5 : Stats}.heal (-10)).1.hp < 0) :=
  heal_negative_spec
    { hp := 5, max_hp := 100, mp := 10, max_mp := 10, attack := 5,
      speed := 5 } (-10) (by decide) (by decide)

/-- Witness for C5: 5 damage against the Warrior's 120 HP. -/
theorem take_damage_spec_witness :
    (warriorStats.take_damage 5).1.hp = max 0 (120 - max 1 5) ∧
    (warriorStats.take_damage 5).2 = max 1 5 ∧
    0 ≤ (warriorStats.take_damage 5).1.hp ∧
    (warriorStats.take_damage 5).1.hp ≤ 120 - 1 :=
  ⟨(take_damage_spec warriorStats 5).1,
   (take_damage_spec warriorStats 5).2.1,
   (take_damage_spec warriorStats 5).2.2.1,
   (take_damage_spec warriorStats 5).2.2.2 (by decide)⟩

/-- Witness for C7: spending 10 MP out of the Warrior's 30 succeeds and
deducts; asking for 40 fails and leaves the container unchanged. -/
theorem use_mp_spec_witness :
    ((warriorStats.use_mp 10).2 = true ↔ warriorStats.mp ≥ 10) ∧
    (warriorStats.use_mp 10).1 =
      { warriorStats with mp := warriorStats.mp - 10 } ∧
    (warriorStats.use_mp 40).1 = warriorStats :=
  ⟨(use_mp_spec warriorStats 10).1,
   (use_mp_spec warriorStats 10).2.1 (by decide),
   (use_mp_spec warriorStats 40).2.2 (by decide)⟩

theorem addEffectToList_not_found (l : List StatusEffect)
    (f : StatusEffect) (h : ∀ e ∈ l, e.name ≠ f.name) :
    addEffectToList l f = l ++ [f] := by
  induction l with
  | nil => rfl
  | cons a rest ih =>
    have ha : a.name ≠ f.name := h a (List.mem_cons_self a rest)
    simp only [addEffectToList, if_neg ha, List.cons_append,
      List.cons.injEq, true_and]
    exact ih fun e he => h e (List.mem_cons_of_mem a he)

theorem addEffectToList_found (l1 : List StatusEffect)
    (e : StatusEffect) (l2 : List StatusEffect) (f : StatusEffect)
    (h1 : ∀ x ∈ l1, x.name ≠ f.name) (he : e.name = f.name) :
    addEffectToList (l1 ++ e :: l2) f = l1 ++ refreshEffect e f :: l2 := by
  induction l1 with
  | nil => simp [addEffectToList, if_pos he]
  | cons a rest ih =>
    have ha : a.name ≠ f.name := h1 a (List.mem_cons_self a rest)
    simp only [List.cons_append, addEffectToList, if_neg ha,
      List.cons.injEq, true_and]
    exact ih fun x hx => h1 x (List.mem_cons_of_mem a hx)

/-- C4: adding two damage-over-time effects of the same (fresh) name
leaves exactly one entry with that name, its power the sum of the two
powers and its duration the max of the two durations; adding a same-name
non-DOT effect only refreshes the duration of the existing entry and
appends nothing. -/
theorem add_status_effect_stacking :
    (∀ (s : Stats) (e1 e2 : StatusEffect),
      (∀ e ∈ s.status_effects, e.name ≠ e1.name) →
      e2.name = e1.name →
      e1.effect_type = "damage_over_time" →
      e2.effect_type = "damage_over_time" →
      ((s.add_status_effect e1).add_status_effect e2).status_effects =
        s.status_effects ++
          [{ e1 with power := e1.power + e2.power,
                     duration := max e1.duration e2.duration }] ∧
      (((s.add_status_effect e1).add_status_effect e2).status_effects.filter
          (fun x => x.name = e1.name)).length = 1) ∧
    (∀ (s : Stats) (l1 l2 : List StatusEffect) (e f : StatusEffect),
      s.status_effects = l1 ++ e :: l2 →
      (∀ x ∈ l1, x.name ≠ f.name) →
      e.name = f.name →
      f.effect_type ≠ "damage_over_time" →
      (s.add_status_effect f).status_effects =
        l1 ++ { e with duration := max e.duration f.duration } :: l2) := by
  constructor
  · intro s e1 e2 hfresh hname _ htype2
    have hstep1 : (s.add_status_effect e1).status_effects =
        s.status_effects ++ [e1] := by
      simp only [Stats.add_status_effect]
      exact addEffectToList_not_found s.status_effects e1 hfresh
    have hfresh2 : ∀ x ∈ s.status_effects, x.name ≠ e2.name := by
      intro x hx
      rw [hname]
      exact hfresh x hx
    have hstep2 :
        ((s.add_status_effect e1).add_status_effect e2).status_effects =
          s.status_effects ++ [refreshEffect e1 e2] := by
      simp only [Stats.add_status_effect]
      rw [addEffectToList_not_found s.status_effects e1 hfresh]
      exact addEffectToList_found s.status_effects e1 [] e2 hfresh2
        hname.symm
    have hrefresh : refreshEffect e1 e2 =
        { e1 with power := e1.power + e2.power,
                  duration := max e1.duration e2.duration } := by
      simp [refreshEffect, htype2]
    constructor
    · rw [hstep2, hrefresh]
    · rw [hstep2, List.filter_append]
      have hnil : s.status_effects.filter (fun x => x.name = e1.name) = [] := by
        apply List.filter_eq_nil_iff.mpr
        intro x hx
        simpa using hfresh x hx
      have hone : ([refreshEffect e1 e2].filter
          (fun x => x.name = e1.name)) = [refreshEffect e1 e2] := by
        simp [refreshEffect]
      rw [hnil, hone]
      rfl
  · intro s l1 l2 e f heq h1 he htype
    simp only [Stats.add_status_effect, heq]
    rw [addEffectToList_found l1 e l2 f h1 he]
    have : refreshEffect e f = { e with duration := max e.duration f.duration } := by
      simp [refreshEffect, htype]
    rw [this]

/-- Witness for C4: two Poison DOTs stack power and take the longer
duration; a repeated stat-mod buff only refreshes its duration. -/
theorem add_status_effect_stacking_witness :
    ((warriorStats.add_status_effect
        { name := "Poison", effect_type := "damage_over_time", power := 3,
          duration := 2 }).add_status_effect
        { name := "Poison", effect_type := "damage_over_time", power := 4,
          duration := 5 }).status_effects =
      [{ name := "Poison", effect_type := "damage_over_time", power := 7,
         duration := 5 }] ∧
    ({ warriorStats with status_effects :=
        [{ name := "Battle Cry", effect_type := "stat_mod",
           stat_affected := "attack", power := 5,
           duration := 1 }] }.add_status_effect
        { name := "Battle Cry", effect_type := "stat_mod",
          stat_affected := "attack", power := 9,
          duration := 3 }).status_effects =
      [{ name := "Battle Cry", effect_type := "stat_mod",
         stat_affected := "attack", power := 5, duration := 3 }] := by
  constructor
  · have := (add_status_effect_stacking.1 warriorStats
      { name := "Poison", effect_type := "damage_over_time", power := 3,
        duration := 2 }
      { name := "Poison", effect_type := "damage_over_time", power := 4,
        duration := 5 }
      (by intro e he; simp [warriorStats] at he) rfl rfl rfl).1
    simpa [warriorStats] using this
  · have := add_status_effect_stacking.2
      { warriorStats with status_effects :=
        [{ name := "Battle Cry", effect_type := "stat_mod",
           stat_affected := "attack", power := 5, duration := 1 }] }
      [] []
      { name := "Battle Cry", effect_type := "stat_mod",
        stat_affected := "attack", power := 5, duration := 1 }
      { name := "Battle Cry", effect_type := "stat_mod",
        stat_affected := "attack", power := 9, duration := 3 }
      (by simp) (by simp) rfl (by decide)
    simpa using this

/-- C8: gain_exp adds the amount to exp and levels up at most once per
call; a level-up applies the 10% growths, the full restore and the speed
bump; a level-1 container with exp 0 gaining 100 exp reaches exactly
level 2. -/
theorem gain_exp_spec (s : Stats) (amount : ℤ) :
    (gainExp s amount).exp = s.exp + amount ∧
    s.level ≤ (gainExp s amount).level ∧
    (gainExp s amount).level ≤ s.level + 1 ∧
    (s.exp + amount ≥ s.level * 100 →
      (gainExp s amount).level = s.level + 1 ∧
      (gainExp s amount).max_hp = s.max_hp + tenPercent s.max_hp ∧
      (gainExp s amount).max_mp = s.max_mp + tenPercent s.max_mp ∧
      (gainExp s amount).hp = (gainExp s amount).max_hp ∧
      (gainExp s amount).mp = (gainExp s amount).max_mp ∧
      (gainExp s amount).attack = s.attack + tenPercent s.attack ∧
      (gainExp s amount).speed = s.speed + 1) ∧
    (s.exp + amount < s.level * 100 →
      gainExp s amount = { s with exp := s.exp + amount }) ∧
    (s.level = 1 → s.exp = 0 → amount = 100 →
      (gainExp s amount).level = 2) := by
  by_cases h : s.exp + amount ≥ s.level * 100
  · have hg : gainExp s amount = levelUp { s with exp := s.exp + amount } := by
      simp only [gainExp]
      rw [if_pos h]
    refine ⟨?_, ?_, ?_, ?_, ?_, ?_⟩
    · rw [hg]; rfl
    · rw [hg]; simp [levelUp]
    · rw [hg]; simp [levelUp]
    · intro _
      rw [hg]
      refine ⟨rfl, rfl, rfl, rfl, rfl, rfl, rfl⟩
    · intro hlt; omega
    · intro h1 _ _
      rw [hg]
      simp only [levelUp]
      omega
  · have hg : gainExp s amount = { s with exp := s.exp + amount } := by
      simp only [gainExp]
      rw [if_neg h]
    refine ⟨?_, ?_, ?_, ?_, ?_, ?_⟩
    · rw [hg]
    · rw [hg]
    · rw [hg]; simp
    · intro hge; omega
    · intro _; exact hg
    · intro h1 h0 h100
      exfalso
      apply h
      rw [h1, h0, h100]
      norm_num

theorem tickLoop_eq (l : List StatusEffect) :
    ∀ s : Stats,
      tickLoop s l =
        ({ s with hp := dotHp s.hp l }, l.map decDur, expiredNames l,
          tickMsgs l) := by
  induction l with
  | nil =>
    intro s
    rfl
  | cons e rest ih =>
    intro s
    have hdec : e.tickEffect = (decDur e, decide (e.duration - 1 > 0)) := rfl
    by_cases hexp : e.duration ≤ 1
    · have hb : decide (e.duration - 1 > 0) = false := by
        simp only [decide_eq_false_iff_not]
        omega
      by_cases hdot : e.effect_type = "damage_over_time" <;>
        simp [tickLoop, hdec, hb, hdot, ih, dotHp, expiredNames, tickMsgs,
          Stats.take_damage, decDur, hexp]
    · have hb : decide (e.duration - 1 > 0) = true := by
        simp only [decide_eq_true_eq]
        omega
      by_cases hdot : e.effect_type = "damage_over_time" <;>
        simp [tickLoop, hdec, hb, hdot, ih, dotHp, expiredNames, tickMsgs,
          Stats.take_damage, decDur, hexp]

theorem remove_foldl (names : List String) :
    ∀ st : Stats,
      names.foldl (fun t nm => t.remove_status_effect nm) st =
        { st with status_effects :=
            st.status_effects.filter (fun e => decide (¬ e.name ∈ names)) } := by
  induction names with
  | nil =>
    intro st
    simp
  | cons nm rest ih =>
    intro st
    rw [List.foldl_cons, ih]
    simp only [Stats.remove_status_effect]
    congr 1
    rw [List.filter_filter]
    apply List.filter_congr
    intro a _
    by_cases h1 : a.name = nm <;> by_cases h2 : a.name ∈ rest <;>
      simp [h1, h2]

theorem filter_expired_of_nodup (l : List StatusEffect)
    (hn : (l.map (fun e => e.name)).Nodup) :
    (l.map decDur).filter (fun e => decide (¬ e.name ∈ expiredNames l)) =
      (l.map decDur).filter (fun e => decide (0 < e.duration)) := by
  apply List.filter_congr
  intro x hx
  obtain ⟨y, hy, rfl⟩ := List.mem_map.mp hx
  have hmem : y.name ∈ expiredNames l ↔ y.duration ≤ 1 := by
    constructor
    · intro h
      obtain ⟨z, hz, hzeq⟩ := List.mem_map.mp h
      have hz' := List.mem_filter.mp hz
      have hzy : z = y :=
        List.inj_on_of_nodup_map hn hz'.1 hy hzeq
      have := hz'.2
      rw [hzy] at this
      simpa using this
    · intro h
      apply List.mem_map.mpr
      refine ⟨y, List.mem_filter.mpr ⟨hy, by simpa using h⟩, rfl⟩
  simp only [decDur, decide_eq_decide]
  constructor
  · intro h
    have : ¬ y.duration ≤ 1 := fun hle => h (hmem.mpr hle)
    omega
  · intro h hin
    have := hmem.mp hin
    omega

/-- C9: one tick processes every effect present at the start exactly
once and in order — each DOT applies its (1-floored) power through
take_damage and logs a damage message, every duration drops by one, an
effect whose duration reaches 0 logs an expiry message — and the expired
effects are removed only after the full pass, so the surviving list is
the in-order decremented list filtered on a positive remaining
duration. -/
theorem tick_status_effects_spec (s : Stats)
    (hnames : (s.status_effects.map (fun e => e.name)).Nodup)
    (hdur : ∀ e ∈ s.status_effects, 1 ≤ e.duration) :
    s.tick_status_effects =
      ({ s with hp := dotHp s.hp s.status_effects,
                status_effects :=
                  (s.status_effects.map decDur).filter
                    (fun e => decide (0 < e.duration)) },
        tickMsgs s.status_effects) ∧
    ∀ e ∈ s.status_effects,
      (e.duration - 1 = 0 ↔ e.name ∈ expiredNames s.status_effects) := by
  constructor
  · show (let r := tickLoop s s.status_effects
      let afterPass := { r.1 with status_effects := r.2.1 }
      (r.2.2.1.foldl (fun st nm => st.remove_status_effect nm) afterPass,
        r.2.2.2)) = _
    rw [tickLoop_eq]
    simp only [remove_foldl]
    rw [filter_expired_of_nodup s.status_effects hnames]
  · intro e he
    constructor
    · intro h
      apply List.mem_map.mpr
      refine ⟨e, List.mem_filter.mpr ⟨he, by simp; omega⟩, rfl⟩
    · intro h
      obtain ⟨z, hz, hzeq⟩ := List.mem_map.mp h
      have hz' := List.mem_filter.mp hz
      have hzy : z = e :=
        List.inj_on_of_nodup_map hnames hz'.1 he hzeq
      have hzd : z.duration ≤ 1 := by simpa using hz'.2
      rw [hzy] at hzd
      have := hdur e he
      omega

/-- Witness for C9: a container with a 2-turn Poison (power 4) and a
1-turn Attack Buff: the tick damages for 4, decrements both durations,
expires only the buff, and removes it after the pass. -/
theorem tick_status_effects_spec_witness :
    ({ hp := 50, max_hp := 50, mp := 10, max_mp := 10, attack := 10,
       speed := 10,
       status_effects :=
         [{ name := "Poison", effect_type := "damage_over_time",
            power := 4, duration := 2 },
          { name := "Attack Buff", effect_type := "stat_mod",
            stat_affected := "attack", power := 3,
            duration := 1 }] : Stats}).tick_status_effects =
      ({ hp := 46, max_hp := 50, mp := 10, max_mp := 10, attack := 10,
         speed := 10,
         status_effects :=
           [{ name := "Poison", effect_type := "damage_over_time",
              power := 4, duration := 1 }] },
        [Msg.dotDamage "Poison" 4, Msg.woreOff "Attack Buff"]) := by
  have h := tick_status_effects_spec
    { hp := 50, max_hp := 50, mp := 10, max_mp := 10, attack := 10,
      speed := 10,
      status_effects :=
        [{ name := "Poison", effect_type := "damage_over_time",
           power := 4, duration := 2 },
         { name := "Attack Buff", effect_type := "stat_mod",
           stat_affected := "attack", power := 3, duration := 1 }] }
    (by decide) (by decide)
  rw [h.1]
  decide

/-- C1 (amended): for every skill use that passes the MP check, the
computed effect amount is `int(base attack * power)` — the caster's base
attack stat — unaffected by active attack stat-modifiers; a damage
skill's hit is computed from that base-attack amount. -/
theorem use_skill_uses_base_attack (caster target : Stats) (skill : Skill)
    (rand : ℚ) (hmp : caster.mp ≥ skill.mp_cost)
    (hty : skill.skill_type = "damage") :
    useSkill caster skill target rand =
      SkillResult.hit { caster with mp := caster.mp - skill.mp_cost }
        (target.take_damage (ratTrunc
          ((ratTrunc ((caster.attack : ℚ) * skill.power) : ℚ) * rand))).1
        (target.take_damage (ratTrunc
          ((ratTrunc ((caster.attack : ℚ) * skill.power) : ℚ) * rand))).2 ∧
    ∀ mods : List StatusEffect,
      effectAmount { caster with status_effects := mods } skill =
        ratTrunc ((caster.attack : ℚ) * skill.power) := by
  constructor
  · simp [useSkill, Stats.use_mp, hmp, hty, effectAmount]
  · intro mods
    rfl

/-- Witness for C1 (amended): the Warrior's Whirlwind against a Slime at
unit variance, and the effect amount under the Battle Cry buff. -/
theorem use_skill_uses_base_attack_witness :
    useSkill warriorStats whirlwind slimeStats 1 =
      SkillResult.hit
        { warriorStats with mp := warriorStats.mp - whirlwind.mp_cost }
        (slimeStats.take_damage (ratTrunc
          ((ratTrunc ((warriorStats.attack : ℚ) * whirlwind.power) : ℚ) * 1))).1
        (slimeStats.take_damage (ratTrunc
          ((ratTrunc ((warriorStats.attack : ℚ) * whirlwind.power) : ℚ) * 1))).2 ∧
    effectAmount
        { warriorStats with status_effects := buffedCaster.status_effects }
        whirlwind =
      ratTrunc ((warriorStats.attack : ℚ) * whirlwind.power) :=
  ⟨(use_skill_uses_base_attack warriorStats slimeStats whirlwind 1
      (by decide) rfl).1,
   (use_skill_uses_base_attack warriorStats slimeStats whirlwind 1
      (by decide) rfl).2 buffedCaster.status_effects⟩

/-- C1 counterexample: with Battle Cry active (+5 attack) the Warrior's
Whirlwind passes the MP check, yet the code's effect amount is
`int(18 * 2.0) = 36`, computed from the base attack, while the claimed
`floor(effective_attack * power)` is `floor(23 * 2.0) = 46`. -/
theorem effect_amount_counterexample :
    (buffedCaster.use_mp whirlwind.mp_cost).2 = true ∧
    effectAmount (buffedCaster.use_mp whirlwind.mp_cost).1 whirlwind = 36 ∧
    effectAmountSpec (buffedCaster.use_mp whirlwind.mp_cost).1 whirlwind
      = 46 ∧
    effectAmount (buffedCaster.use_mp whirlwind.mp_cost).1 whirlwind ≠
      effectAmountSpec (buffedCaster.use_mp whirlwind.mp_cost).1
        whirlwind := by
  refine ⟨by decide, ?_, ?_, ?_⟩ <;>
    norm_num [effectAmount, effectAmountSpec, ratTrunc, ratFloor,
      buffedCaster, whirlwind, warriorStats, Stats.use_mp,
      Stats.get_effective_attack, Stats.get_stat_modifier]

/-- C3: in the combat loop the skill target is always the enemy, so a
heal skill passing the MP check restores the enemy's HP by the heal
rule, the caster's own HP is untouched, and the turn continues with the
healed enemy and the HP-unchanged player. -/
theorem combat_heal_targets_enemy (p : Player) (e : Enemy) (skill : Skill)
    (sR eR : ℚ) (hmp : p.stats.mp ≥ skill.mp_cost)
    (hty : skill.skill_type = "heal") :
    useSkill p.stats skill e.stats sR =
      SkillResult.hit { p.stats with mp := p.stats.mp - skill.mp_cost }
        { e.stats with
          hp := min e.stats.max_hp
            (e.stats.hp + effectAmount p.stats skill) } 0 ∧
    ({ p.stats with mp := p.stats.mp - skill.mp_cost } : Stats).hp
      = p.stats.hp ∧
    combatTurnSkill p e skill sR eR =
      skillHitContinue
        { p with stats := { p.stats with mp := p.stats.mp - skill.mp_cost } }
        { e with stats := { e.stats with
            hp := min e.stats.max_hp
              (e.stats.hp + effectAmount p.stats skill) } } eR := by
  have hdam : skill.skill_type ≠ "damage" := by
    rw [hty]
    decide
  have h1 : useSkill p.stats skill e.stats sR =
      SkillResult.hit { p.stats with mp := p.stats.mp - skill.mp_cost }
        { e.stats with
          hp := min e.stats.max_hp
            (e.stats.hp + effectAmount p.stats skill) } 0 := by
    simp [useSkill, Stats.use_mp, hmp, hty, Stats.heal, effectAmount]
  refine ⟨h1, rfl, ?_⟩
  simp only [combatTurnSkill, h1]

/-- Witness for C3: the Wizard's Heal cast in combat against a wounded
Slime heals the Slime from 20 to 29 HP while the Wizard's HP is 80
before and after the cast. -/
theorem combat_heal_targets_enemy_witness :
    useSkill wizardPlayer.stats healSkill woundedSlime.stats 1 =
      SkillResult.hit
        { wizardPlayer.stats with
          mp := wizardPlayer.stats.mp - healSkill.mp_cost }
        { woundedSlime.stats with
          hp := min woundedSlime.stats.max_hp
            (woundedSlime.stats.hp +
              effectAmount wizardPlayer.stats healSkill) } 0 ∧
    ({ wizardPlayer.stats with
       mp := wizardPlayer.stats.mp - healSkill.mp_cost } : Stats).hp
      = wizardPlayer.stats.hp ∧
    combatTurnSkill wizardPlayer woundedSlime healSkill 1 1 =
      skillHitContinue
        { wizardPlayer with stats :=
            { wizardPlayer.stats with
              mp := wizardPlayer.stats.mp - healSkill.mp_cost } }
        { woundedSlime with stats :=
            { woundedSlime.stats with
              hp := min woundedSlime.stats.max_hp
                (woundedSlime.stats.hp +
                  effectAmount wizardPlayer.stats healSkill) } } 1 :=
  combat_heal_targets_enemy wizardPlayer woundedSlime healSkill 1 1
    (by decide) rfl

theorem ratTrunc_intCast (n : ℤ) : ratTrunc (n : ℚ) = n := by
  show Int.tdiv (n : ℚ).num ((n : ℚ).den : ℤ) = n
  rw [Rat.num_intCast, Rat.den_intCast]
  cases n with
  | ofNat m => simp [Int.tdiv]
  | negSucc m =>
    simp [Int.tdiv]
    rw [Int.negSucc_eq]
    ring

theorem dotHp_nonpos (l : List StatusEffect) :
    ∀ hp : ℤ, hp ≤ 0 → dotHp hp l ≤ 0 := by
  induction l with
  | nil =>
    intro hp h
    simpa [dotHp] using h
  | cons e rest ih =>
    intro hp h
    by_cases hd : e.effect_type = "damage_over_time"
    · have h1 : (1 : ℤ) ≤ max 1 e.power := le_max_left _ _
      have hx : hp - max 1 e.power ≤ 0 := by omega
      have hstep : max 0 (hp - max 1 e.power) ≤ 0 := max_le le_rfl hx
      simpa [dotHp, List.foldl_cons, hd] using ih _ hstep
    · simpa [dotHp, List.foldl_cons, hd] using ih _ h

theorem tick_hp (s : Stats) :
    (s.tick_status_effects).1.hp = dotHp s.hp s.status_effects := by
  simp [Stats.tick_status_effects, tickLoop_eq, remove_foldl]

/-- C2 (amended): in every combat-loop iteration in which the player's
basic attack leaves the enemy alive, the end-of-turn status-effect tick
is run on both combatants even when the enemy's action reduced the
player's HP to 0: the defeat transition only happens at the loop check,
after the tick. -/
theorem enemy_kill_still_ticks (p : Player) (e : Enemy) (pR eR : ℚ)
    (halive : ((basicAttack p.stats e.stats pR).1).is_alive = true) :
    combatTurnAttack p e pR eR =
      TurnResult.ongoing
        { (enemyTurn { e with stats := (basicAttack p.stats e.stats pR).1 }
             p eR).1 with
          stats := ((enemyTurn
              { e with stats := (basicAttack p.stats e.stats pR).1 }
              p eR).1.stats.tick_status_effects).1 }
        { e with stats :=
            (((basicAttack p.stats e.stats pR).1).tick_status_effects).1 } ∧
    ((enemyTurn { e with stats := (basicAttack p.stats e.stats pR).1 }
        p eR).1.stats.hp ≤ 0 →
      stateAfterTurn (combatTurnAttack p e pR eR) =
        CombatState.playerDefeat) := by
  have h1 : combatTurnAttack p e pR eR =
      TurnResult.ongoing
        { (enemyTurn { e with stats := (basicAttack p.stats e.stats pR).1 }
             p eR).1 with
          stats := ((enemyTurn
              { e with stats := (basicAttack p.stats e.stats pR).1 }
              p eR).1.stats.tick_status_effects).1 }
        { e with stats :=
            (((basicAttack p.stats e.stats pR).1).tick_status_effects).1 } := by
    simp [combatTurnAttack, halive]
  refine ⟨h1, fun hle => ?_⟩
  rw [h1]
  have hhp : ((enemyTurn
      { e with stats := (basicAttack p.stats e.stats pR).1 }
      p eR).1.stats.tick_status_effects).1.hp ≤ 0 := by
    rw [tick_hp]
    exact dotHp_nonpos _ _ hle
  simp [stateAfterTurn, Stats.is_alive]
  omega

/-- C2 counterexample: the poisoned 3-HP Warrior is killed by the
Slime's counterattack, yet the end-of-turn tick still runs on both
combatants — the player's Poison fires and its duration drops from 3 to
2 — and defeat is only reported by the subsequent loop check. -/
theorem defeat_skips_tick_counterexample :
    combatTurnAttack doomedPlayer slimeEnemy 1 1 =
      TurnResult.ongoing
        { doomedPlayer with stats :=
            { warriorStats with
              hp := 0,
              status_effects :=
                [{ name := "Poison", effect_type := "damage_over_time",
                   power := 2, duration := 2 }] } }
        { slimeEnemy with stats := { slimeStats with hp := 12 } } ∧
    stateAfterTurn (combatTurnAttack doomedPlayer slimeEnemy 1 1) =
      CombatState.playerDefeat := by
  have h : combatTurnAttack doomedPlayer slimeEnemy 1 1 =
      TurnResult.ongoing
        { doomedPlayer with stats :=
            { warriorStats with
              hp := 0,
              status_effects :=
                [{ name := "Poison", effect_type := "damage_over_time",
                   power := 2, duration := 2 }] } }
        { slimeEnemy with stats := { slimeStats with hp := 12 } } := by
    simp only [combatTurnAttack, basicAttack, enemyTurn, mul_one,
      ratTrunc_intCast]
    decide
  refine ⟨h, ?_⟩
  rw [h]
  decide

/-- Witness for C2 (amended): the doomed Warrior / Slime turn above,
with the hypotheses discharged concretely. -/
theorem enemy_kill_still_ticks_witness :
    combatTurnAttack doomedPlayer slimeEnemy 1 1 =
      TurnResult.ongoing
        { (enemyTurn
            { slimeEnemy with stats :=
                (basicAttack doomedPlayer.stats slimeEnemy.stats 1).1 }
            doomedPlayer 1).1 with
          stats := ((enemyTurn
              { slimeEnemy with stats :=
                  (basicAttack doomedPlayer.stats slimeEnemy.stats 1).1 }
              doomedPlayer 1).1.stats.tick_status_effects).1 }
        { slimeEnemy with stats :=
            (((basicAttack doomedPlayer.stats slimeEnemy.stats 1).1
               ).tick_status_effects).1 } ∧
    ((enemyTurn
        { slimeEnemy with stats :=
            (basicAttack doomedPlayer.stats slimeEnemy.stats 1).1 }
        doomedPlayer 1).1.stats.hp ≤ 0 →
      stateAfterTurn (combatTurnAttack doomedPlayer slimeEnemy 1 1) =
        CombatState.playerDefeat) :=
  enemy_kill_still_ticks doomedPlayer slimeEnemy 1 1
    (by simp only [basicAttack, mul_one, ratTrunc_intCast]
        decide)

/-- Witness for C8: the Warrior starting stats at level 1 with 0 exp
gaining 100 exp. -/
theorem gain_exp_spec_witness :
    (gainExp warriorStats 100).exp = 0 + 100 ∧
    (gainExp warriorStats 100).level = 2 ∧
    (gainExp warriorStats 100).max_hp = 120 + tenPercent 120 := by
  have h := gain_exp_spec warriorStats 100
  have hthr : warriorStats.exp + 100 ≥ warriorStats.level * 100 := by decide
  refine ⟨h.1, ?_, ?_⟩
  · exact h.2.2.2.2.2 rfl rfl rfl
  · exact (h.2.2.2.1 hthr).2.1

end DungeonQuest
